import Mathlib

/-!
Shallow embedding of the Avalon bus drivers and monitors of `cocotb-bus`
(`src/cocotb_bus/drivers/avalon.py` and `src/cocotb_bus/monitors/avalon.py`),
together with theorems settling the specification claims about them.

Conventions:
* Machine words and addresses are `Nat`; byte lanes are masked explicitly.
* A signal value that may hold unknown (`x`) bits is a `List Bit` (most
  significant bit first, matching a cocotb `binstr`).
* Python code that raises is embedded as `Except`; code that only calls
  `self.log.error` / `self.log.warning` produces a list of diagnostics and
  continues.
* Coroutine loops are embedded either as step functions on an explicit state
  (monitors) or as generators of the per-cycle event sequence they drive
  (drivers), with an explicit fuel argument bounding the loop iterations
  where the Python loop consumes its input list.
-/

namespace AvalonModel

/-- A single wire bit: driven 0, driven 1, or unknown (`x`). -/
inductive Bit
  | b0
  | b1
  | bx
deriving DecidableEq, Repr

/-- `BinaryValue.is_resolvable`: no unknown bit in the vector. -/
def resolvable (l : List Bit) : Bool :=
  l.all fun b => match b with
    | Bit.bx => false
    | _ => true

/-! ## AvalonMemory: burst validation (`_write_burst_addr`, burst-read path)

The source of `AvalonMemory._write_burst_addr` and of the burst-read branch of
`AvalonMemory._respond` checks three preconditions and calls `self.log.error`
for each violation; no `raise` statement exists on either path, so the
`Except` component below is always `.ok`. -/

/-- Diagnostics the memory responder can log on a burst access. -/
inductive MemDiag
  | misalignedAddress
  | nonFullByteenable
  | zeroBurstcount
deriving DecidableEq, Repr

/-- The validation-error class the specification says these paths raise. -/
inductive ValidationError
  | validationError
deriving DecidableEq, Repr

/-- `AvalonMemory._write_burst_addr`: sample address, byteenable and
burstcount for a burst write.  Each failed check only logs
(`self.log.error`); the sampled triple is returned unconditionally. -/
def write_burst_addr (dataByteSize beWidth addr byteenable burstcount : Nat) :
    List MemDiag × Except ValidationError (Nat × Nat × Nat) :=
  let d1 : List MemDiag :=
    if addr % dataByteSize ≠ 0 then [MemDiag.misalignedAddress] else []
  let d2 : List MemDiag :=
    if byteenable ≠ 2 ^ beWidth - 1 then [MemDiag.nonFullByteenable] else []
  let d3 : List MemDiag :=
    if burstcount = 0 then [MemDiag.zeroBurstcount] else []
  (d1 ++ d2 ++ d3, Except.ok (addr, byteenable, burstcount))

/-- Burst-read validation prefix of `AvalonMemory._respond` (the branch under
`self._burstread`): the same three checks, again only logged, after which the
word-aligned address `addr // dataByteSize` and the burst count are used to
stream the burst. -/
def respond_burst_read_validate (dataByteSize beWidth addr byteenable burstcount : Nat) :
    List MemDiag × Except ValidationError (Nat × Nat) :=
  let d1 : List MemDiag :=
    if addr % dataByteSize ≠ 0 then [MemDiag.misalignedAddress] else []
  let d2 : List MemDiag :=
    if byteenable ≠ 2 ^ beWidth - 1 then [MemDiag.nonFullByteenable] else []
  let d3 : List MemDiag :=
    if burstcount = 0 then [MemDiag.zeroBurstcount] else []
  (d1 ++ d2 ++ d3, Except.ok (addr / dataByteSize, burstcount))

/-! ## AvalonMemory: non-burst write with byteenable (`_respond`)

The non-burst write branch of `_respond` merges the incoming word with the
previously stored word per byte lane: for each lane `i` of the
`width // 8` lanes, an enabled lane contributes `0xFF << (8*i)` to `mask`,
a disabled lane contributes it to `oldmask`, and the stored word becomes
`(data & mask) | (olddata & oldmask)` with `olddata = 0` for a never-written
address. -/

/-- The `(mask, oldmask)` pair computed by the lane loop of the non-burst
write branch of `AvalonMemory._respond`. -/
def write_masks (lanes byteenable : Nat) : Nat × Nat :=
  (List.range lanes).foldl
    (fun p i =>
      if byteenable &&& 2 ^ i ≠ 0 then (p.1 ||| 255 <<< (8 * i), p.2)
      else (p.1, p.2 ||| 255 <<< (8 * i)))
    (0, 0)

/-- The backing store `self._mem` restricted to the non-burst access paths,
which key it by the raw sampled address and store whole words.  `none`
models an address that was never written. -/
def nonburst_write (lanes : Nat) (mem : Nat → Option Nat) (addr data byteenable : Nat) :
    Nat → Option Nat :=
  let olddata := (mem addr).getD 0
  let masks := write_masks lanes byteenable
  let merged := (data &&& masks.1) ||| (olddata &&& masks.2)
  fun a => if a = addr then some merged else mem a

/-- Non-burst read branch of `_respond`: the stored word for the address, or
`none` (the all-`x` sentinel appended with a warning) if never written. -/
def nonburst_read (mem : Nat → Option Nat) (addr : Nat) : Option Nat :=
  mem addr

/-! ## AvalonMemory: construction-time configuration (`__init__`)

`AvalonMemory._avalon_properties` is a class attribute.  `__init__` executes
`self._avalon_properties[key] = avl_properties.get(key, value)` for each key,
which mutates that shared class-level dictionary in place (no copy is made,
unlike the `_default_config.copy()` in the streaming classes).  Every
instance's `self._avalon_properties` is the same object, so the embedding
threads the class table through each construction and an instance's resolved
options are the class table as left by the most recent construction. -/

/-- The declared default option table (`AvalonMemory._avalon_properties`). -/
structure AvalonMemProps where
  burstCountUnits : String
  addressUnits : String
  readLatency : Nat
  writeBurstWaitReq : Bool
  maxWaitReqLen : Nat
deriving DecidableEq, Repr

/-- The literal defaults declared on the class. -/
def avalon_memory_default_properties : AvalonMemProps :=
  { burstCountUnits := "symbols"
    addressUnits := "symbols"
    readLatency := 1
    writeBurstWaitReq := true
    maxWaitReqLen := 4 }

/-- The caller's `avl_properties` dictionary, one optional entry per
recognised key (unrecognised keys are ignored by the merge loop). -/
structure AvlOverrides where
  burstCountUnits : Option String := none
  addressUnits : Option String := none
  readLatency : Option Nat := none
  writeBurstWaitReq : Option Bool := none
  maxWaitReqLen : Option Nat := none
deriving DecidableEq, Repr

/-- `avl_properties == {}`. -/
def overrides_empty (o : AvlOverrides) : Bool :=
  o.burstCountUnits.isNone && o.addressUnits.isNone && o.readLatency.isNone
    && o.writeBurstWaitReq.isNone && o.maxWaitReqLen.isNone

/-- The merge loop `for key, value in self._avalon_properties.items():
self._avalon_properties[key] = avl_properties.get(key, value)`. -/
def merge_avalon_properties (cur : AvalonMemProps) (o : AvlOverrides) : AvalonMemProps :=
  { burstCountUnits := o.burstCountUnits.getD cur.burstCountUnits
    addressUnits := o.addressUnits.getD cur.addressUnits
    readLatency := o.readLatency.getD cur.readLatency
    writeBurstWaitReq := o.writeBurstWaitReq.getD cur.writeBurstWaitReq
    maxWaitReqLen := o.maxWaitReqLen.getD cur.maxWaitReqLen }

/-- Diagnostics `AvalonMemory.__init__` can log about the resolved units. -/
inductive MemInitDiag
  | badBurstCountUnits
  | badAddressUnits
deriving DecidableEq, Repr

/-- The only exception `AvalonMemory.__init__` raises
(`TestError("Attempt to instantiate useless memory")`). -/
inductive MemInitError
  | uselessMemory
deriving DecidableEq, Repr

/-- Result of constructing an `AvalonMemory`: the post-construction contents
of the class-level option table (which is also every live instance's
`self._avalon_properties`), the logged diagnostics, and whether construction
completed. -/
structure AvalonMemoryInitResult where
  classTable : AvalonMemProps
  diags : List MemInitDiag
  result : Except MemInitError Unit
deriving Repr

/-- `AvalonMemory.__init__` restricted to option resolution, the two
units checks (lines 223-227, `self.log.error` only) and the
readable/writeable capability check (the only `raise`). -/
def avalon_memory_init (classTable : AvalonMemProps) (avl : AvlOverrides)
    (hasReaddata hasWritedata : Bool) : AvalonMemoryInitResult :=
  let table :=
    if overrides_empty avl then classTable else merge_avalon_properties classTable avl
  let d1 : List MemInitDiag :=
    if table.burstCountUnits ≠ "symbols" then [MemInitDiag.badBurstCountUnits] else []
  let d2 : List MemInitDiag :=
    if table.addressUnits ≠ "symbols" then [MemInitDiag.badAddressUnits] else []
  if !hasReaddata && !hasWritedata then
    { classTable := table, diags := d1 ++ d2, result := Except.error MemInitError.uselessMemory }
  else
    { classTable := table, diags := d1 ++ d2, result := Except.ok () }

/-! ## AvalonSTPkts driver (`_send_string`)

The packetized streaming driver is embedded as a generator of the sequence of
signal-drive / wait events it performs, in program order, stopping at the
first raised `TestError`.  The throttle profile of `ValidatedBusDriver`
defaults to the always-on profile (`self.on is True`), under which the
`if not self.on:` gap and the on-count decrement are both skipped, so no
throttle events appear. -/

/-- One observable action of `_send_string`, in program order.  `none` in a
`set*` payload models blanking the signal to `x`. -/
inductive DrvEvent
  | clockEdge
  | waitReady
  | setValid (b : Bool)
  | setStartofpacket (v : Option Bool)
  | setEndofpacket (v : Option Bool)
  | setData (v : Option (List Nat))
  | setEmpty (v : Option Nat)
  | setChannel (v : Option Int)
  | setErrorSig (v : Nat)
deriving DecidableEq, Repr

/-- The two `TestError`s `_send_string` can raise. -/
inductive SendStringError
  | noChannelSignal
  | channelOutOfRange
deriving DecidableEq, Repr

/-- Construction-time facts of an `AvalonSTPkts` driver used by
`_send_string`: `busWidth = len(bus.data) // dataBitsPerSymbol` symbols per
word, the optional-wire capabilities, and the resolved `maxChannel`. -/
structure STPktsDriverCfg where
  busWidth : Nat
  useEmpty : Bool
  hasError : Bool
  hasChannel : Bool
  hasReady : Bool
  maxChannel : Nat
deriving DecidableEq, Repr

/-- The `while string:` loop of `_send_string`.  `fuel` bounds the number of
iterations; each iteration consumes `busWidth > 0` bytes, so
`fuel = string.length` always suffices (the Python loop would not terminate
on a zero-width bus). -/
def send_string_loop (cfg : STPktsDriverCfg) (channel : Option Int) (sync : Bool) :
    Nat → Bool → List Nat → List DrvEvent × Option SendStringError
  | _, _, [] => ([], none)
  | 0, _, _ :: _ => ([], none)
  | fuel + 1, firstword, b :: rest =>
    let s := b :: rest
    let e1 : List DrvEvent := if !firstword || (firstword && sync) then [DrvEvent.clockEdge] else []
    let e2 : List DrvEvent := [DrvEvent.setValid true]
    let chRes : Except SendStringError (List DrvEvent) :=
      if cfg.hasChannel then
        match channel with
        | none => Except.ok [DrvEvent.setChannel (some 0)]
        | some ch =>
          if ch > (cfg.maxChannel : Int) ∨ ch < 0 then Except.error SendStringError.channelOutOfRange
          else Except.ok [DrvEvent.setChannel (some ch)]
      else Except.ok []
    match chRes with
    | Except.error err => (e1 ++ e2, some err)
    | Except.ok e3 =>
      let e4 : List DrvEvent := [DrvEvent.setStartofpacket (some firstword)]
      let nbytes := min s.length cfg.busWidth
      let dataBytes := s.take nbytes
      let e7 : List DrvEvent := if cfg.hasReady then [DrvEvent.waitReady] else []
      if s.length ≤ cfg.busWidth then
        let e5 : List DrvEvent :=
          [DrvEvent.setEndofpacket (some true)]
            ++ (if cfg.useEmpty then [DrvEvent.setEmpty (some (cfg.busWidth - s.length))] else [])
        (e1 ++ e2 ++ e3 ++ e4 ++ e5 ++ [DrvEvent.setData (some dataBytes)] ++ e7, none)
      else
        let tail := send_string_loop cfg channel sync fuel false (s.drop cfg.busWidth)
        (e1 ++ e2 ++ e3 ++ e4 ++ [DrvEvent.setData (some dataBytes)] ++ e7 ++ tail.1, tail.2)

/-- The idle defaults `_send_string` drives before its loop (lines 655-662). -/
def send_string_prologue (cfg : STPktsDriverCfg) : List DrvEvent :=
  (if cfg.useEmpty then [DrvEvent.setEmpty (some 0)] else [])
    ++ [DrvEvent.setStartofpacket (some false), DrvEvent.setEndofpacket (some false),
        DrvEvent.setValid false]
    ++ (if cfg.hasError then [DrvEvent.setErrorSig 0] else [])

/-- `AvalonSTPkts._send_string`: event sequence up to the first raise, plus
the raised error, if any. -/
def send_string (cfg : STPktsDriverCfg) (s : List Nat) (sync : Bool) (channel : Option Int) :
    List DrvEvent × Option SendStringError :=
  let pro := send_string_prologue cfg
  let chInit : Except SendStringError (List DrvEvent) :=
    if cfg.hasChannel then Except.ok [DrvEvent.setChannel (some 0)]
    else
      match channel with
      | some _ => Except.error SendStringError.noChannelSignal
      | none => Except.ok []
  match chInit with
  | Except.error err => (pro, some err)
  | Except.ok e0 =>
    let body := send_string_loop cfg channel sync s.length true s
    match body.2 with
    | some err => (pro ++ e0 ++ body.1, some err)
    | none =>
      let epi : List DrvEvent :=
        [DrvEvent.clockEdge, DrvEvent.setValid false, DrvEvent.setEndofpacket (some false),
         DrvEvent.setData none, DrvEvent.setStartofpacket none, DrvEvent.setEndofpacket none]
          ++ (if cfg.useEmpty then [DrvEvent.setEmpty none] else [])
          ++ (if cfg.hasChannel then [DrvEvent.setChannel none] else [])
      (pro ++ e0 ++ body.1 ++ epi, none)

/-- The values successively driven on the `empty` wire within an event
sequence. -/
def emptyDrives (evs : List DrvEvent) : List (Option Nat) :=
  evs.filterMap fun e =>
    match e with
    | DrvEvent.setEmpty v => some v
    | _ => none

/-- The values successively driven on the `endofpacket` wire within an
event sequence. -/
def eopDrives (evs : List DrvEvent) : List (Option Bool) :=
  evs.filterMap fun e =>
    match e with
    | DrvEvent.setEndofpacket v => some v
    | _ => none

/-! ## AvalonST word-level monitor and driver

The word-level monitor (`monitors/avalon.py`, `AvalonST._monitor_recv`)
samples once per clock edge and emits `bus.data` whenever its `valid()`
closure is true.  A cycle's sampled values are a `STCycle`; the data wire is
modelled as the byte sequence observed on it in configured symbol order
(the `BinaryValue.buff` conversion is the external cocotb boundary). -/

/-- One sampled cycle on a word-level Avalon-ST bus.  `ready` is the sampled
value of the optional ready wire (ignored when the bus has none). -/
structure STCycle where
  valid : Bool
  ready : Bool
  data : List Nat
deriving DecidableEq, Repr

/-- The `valid()` closure of `AvalonST._monitor_recv`: with a ready wire,
`bus.valid.value and bus.ready.value`; otherwise `bus.valid.value`. -/
def st_accept (hasReady : Bool) (c : STCycle) : Bool :=
  if hasReady then c.valid && c.ready else c.valid

/-- The sampling loop of `AvalonST._monitor_recv` over a finite cycle trace:
each accepted cycle's data is emitted, in order, to `self._recv`. -/
def st_monitor_recv (hasReady : Bool) : List STCycle → List (List Nat)
  | [] => []
  | c :: cs =>
    if st_accept hasReady c then c.data :: st_monitor_recv hasReady cs
    else st_monitor_recv hasReady cs

/-- The sampled-cycle trace produced by back-to-back `AvalonST._driver_send`
calls (`sync = True`, default always-on throttle profile, environment holding
`ready` at the given value): each word occupies one valid cycle, followed by
the idle cycle in which the driver has deasserted `valid` and blanked the
data wire while it waits for the next call's clock edge. -/
def avalonST_driver_trace (ready : Bool) : List (List Nat) → List STCycle
  | [] => []
  | w :: ws =>
    { valid := true, ready := ready, data := w }
      :: { valid := false, ready := ready, data := [] }
      :: avalonST_driver_trace ready ws

/-! ## AvalonSTPkts monitor (`_monitor_recv`)

The packetized monitor is embedded as a step function on its loop-carried
state (`pkt`, the `in_pkt` event, `invalid_cyclecount`, `channel`), executed
once per sampled cycle.  A raised `AvalonProtocolError` is terminal. -/

/-- The protocol errors `AvalonSTPkts._monitor_recv` can raise. -/
inductive ProtoError
  | duplicateStart
  | dataOutsidePacket
  | unresolvable
  | channelOverMax
  | channelChanged
  | inPacketTimeout
deriving DecidableEq, Repr

/-- Configuration and wiring facts of an `AvalonSTPkts` monitor used by
`_monitor_recv`. -/
structure PktMonitorCfg where
  dataBitsPerSymbol : Nat
  firstSymbolInHighOrderBits : Bool
  maxChannel : Nat
  invalidTimeout : Nat
  useEmpty : Bool
  reportChannel : Bool
  hasReady : Bool
  hasChannel : Bool
  hasError : Bool
deriving DecidableEq, Repr

/-- One sampled cycle on a packetized Avalon-ST bus. -/
structure PktCycle where
  inReset : Bool
  valid : Bool
  ready : Bool
  sop : Bool
  eop : Bool
  data : List Bit
  empty : Nat
  channel : Nat
  errorSig : Nat
deriving DecidableEq, Repr

/-- The monitor's loop-carried state. -/
structure PktState where
  pkt : List Bit
  inPkt : Bool
  invalidCyclecount : Nat
  channel : Option Nat
deriving DecidableEq, Repr

/-- The `valid()` closure of `AvalonSTPkts._monitor_recv` (same acceptance
rule as the word-level monitor). -/
def pkt_accept (cfg : PktMonitorCfg) (c : PktCycle) : Bool :=
  if cfg.hasReady then c.valid && c.ready else c.valid

/-- Python's `value[:-e]` on a bit string (note `value[:-0]` is empty). -/
def sliceDropLast (l : List Bit) (e : Nat) : List Bit :=
  if e = 0 then [] else l.take (l.length - e)

/-- End-of-packet data handling of `_monitor_recv` (lines 194-211): when the
bus uses `empty` and the sampled `empty` value is non-zero, strip
`empty * dataBitsPerSymbol` bits, via `value[:-e]` when
`firstSymbolInHighOrderBits` and `value[e:]` otherwise; then raise if the
remaining vector is still unresolvable. -/
def pkt_eop_value (cfg : PktMonitorCfg) (c : PktCycle) : Except ProtoError (List Bit) :=
  let value :=
    if cfg.useEmpty ∧ c.empty ≠ 0 then
      let e := c.empty * cfg.dataBitsPerSymbol
      if cfg.firstSymbolInHighOrderBits then sliceDropLast c.data e
      else c.data.drop e
    else c.data
  if resolvable value then Except.ok value else Except.error ProtoError.unresolvable

/-- What one delivery to `self._recv` carries: the accumulated packet bits
and, when `report_channel` is set, the packet's channel. -/
structure PktDelivery where
  data : List Bit
  channel : Option Nat
deriving DecidableEq, Repr

/-- The accepted-word branch of `_monitor_recv` (lines 172-250), in source
order: reset the invalid-cycle counter; duplicate-start check; start a
packet on `startofpacket`; data-outside-packet check; end-of-packet empty
handling; append to `pkt`; channel checks; deliver on `endofpacket`. -/
def pkt_step_accepted (cfg : PktMonitorCfg) (s : PktState) (c : PktCycle) :
    Except ProtoError (PktState × Option PktDelivery) :=
  if c.sop ∧ s.pkt ≠ [] then Except.error ProtoError.duplicateStart
  else
    let inPkt := if c.sop then true else s.inPkt
    let pkt0 : List Bit := if c.sop then [] else s.pkt
    if !inPkt then Except.error ProtoError.dataOutsidePacket
    else
      match (if c.eop then pkt_eop_value cfg c else Except.ok c.data) with
      | Except.error err => Except.error err
      | Except.ok vec =>
        let pkt1 := pkt0 ++ vec
        let chRes : Except ProtoError (Option Nat) :=
          if cfg.hasChannel then
            match s.channel with
            | none =>
              if c.channel > cfg.maxChannel then Except.error ProtoError.channelOverMax
              else Except.ok (some c.channel)
            | some ch =>
              if c.channel ≠ ch then Except.error ProtoError.channelChanged
              else Except.ok (some ch)
          else Except.ok s.channel
        match chRes with
        | Except.error err => Except.error err
        | Except.ok ch =>
          if c.eop then
            Except.ok
              ({ pkt := [], inPkt := false, invalidCyclecount := 0, channel := none },
               some { data := pkt1, channel := if cfg.reportChannel then ch else none })
          else
            Except.ok
              ({ pkt := pkt1, inPkt := inPkt, invalidCyclecount := 0, channel := ch }, none)

/-- The no-accepted-word branch of `_monitor_recv` (lines 251-259): while a
packet is open, count the invalid cycle and raise at a configured non-zero
timeout. -/
def pkt_step_idle (cfg : PktMonitorCfg) (s : PktState) :
    Except ProtoError (PktState × Option PktDelivery) :=
  if s.inPkt then
    let ic := s.invalidCyclecount + 1
    if cfg.invalidTimeout ≠ 0 ∧ ic ≥ cfg.invalidTimeout then
      Except.error ProtoError.inPacketTimeout
    else Except.ok ({ s with invalidCyclecount := ic }, none)
  else Except.ok (s, none)

/-- One iteration of the `while True:` loop of `AvalonSTPkts._monitor_recv`:
reset handling, then the accepted / not-accepted branches. -/
def pkt_step (cfg : PktMonitorCfg) (s : PktState) (c : PktCycle) :
    Except ProtoError (PktState × Option PktDelivery) :=
  if c.inReset then
    Except.ok ({ pkt := [], inPkt := false, invalidCyclecount := 0, channel := none }, none)
  else if pkt_accept cfg c then pkt_step_accepted cfg s c
  else pkt_step_idle cfg s

/-- Running the monitor over a finite cycle trace, collecting deliveries and
stopping at the first protocol error (protocol errors are terminal). -/
def pkt_run (cfg : PktMonitorCfg) (s : PktState) :
    List PktCycle → Except ProtoError (PktState × List PktDelivery)
  | [] => Except.ok (s, [])
  | c :: cs =>
    match pkt_step cfg s c with
    | Except.error err => Except.error err
    | Except.ok (s1, out) =>
      match pkt_run cfg s1 cs with
      | Except.error err => Except.error err
      | Except.ok (s2, outs) => Except.ok (s2, out.toList ++ outs)

/-! ## Claim C1 -/

/-- C1 (counterexample): at the concrete burst access with misaligned
address 2 (word size 4) and burst count 0, both burst validation paths of
`AvalonMemory` return normally (`Except.ok` with the sampled values) after
merely logging diagnostics — no `ValidationError` fatal to the call is
raised, contrary to the claim. -/
theorem write_burst_addr_no_raise_cex :
    write_burst_addr 4 4 2 15 0 =
      ([MemDiag.misalignedAddress, MemDiag.zeroBurstcount], Except.ok (2, 15, 0)) ∧
    respond_burst_read_validate 4 4 2 15 0 =
      ([MemDiag.misalignedAddress, MemDiag.zeroBurstcount], Except.ok (0, 0)) :=
  ⟨rfl, rfl⟩

/-- C1 (amended): for every burst access observed by `AvalonMemory`, a
misaligned address, a partial byte-enable, or a zero burst count makes the
responder log the corresponding error diagnostic and continue processing the
burst with the sampled values; neither the burst-write nor the burst-read
validation path raises. -/
theorem burst_validation_logs_and_continues
    (dataByteSize beWidth addr byteenable burstcount : Nat) :
    (write_burst_addr dataByteSize beWidth addr byteenable burstcount).2 =
        Except.ok (addr, byteenable, burstcount) ∧
    (respond_burst_read_validate dataByteSize beWidth addr byteenable burstcount).2 =
        Except.ok (addr / dataByteSize, burstcount) ∧
    (addr % dataByteSize ≠ 0 →
      MemDiag.misalignedAddress ∈
          (write_burst_addr dataByteSize beWidth addr byteenable burstcount).1 ∧
      MemDiag.misalignedAddress ∈
          (respond_burst_read_validate dataByteSize beWidth addr byteenable burstcount).1) ∧
    (byteenable ≠ 2 ^ beWidth - 1 →
      MemDiag.nonFullByteenable ∈
          (write_burst_addr dataByteSize beWidth addr byteenable burstcount).1 ∧
      MemDiag.nonFullByteenable ∈
          (respond_burst_read_validate dataByteSize beWidth addr byteenable burstcount).1) ∧
    (burstcount = 0 →
      MemDiag.zeroBurstcount ∈
          (write_burst_addr dataByteSize beWidth addr byteenable burstcount).1 ∧
      MemDiag.zeroBurstcount ∈
          (respond_burst_read_validate dataByteSize beWidth addr byteenable burstcount).1) := by
  refine ⟨rfl, rfl, fun h => ?_, fun h => ?_, fun h => ?_⟩ <;>
    simp [write_burst_addr, respond_burst_read_validate, h]

/-- C1 (witness for the amended theorem): the three diagnostics are really
logged at concrete violating inputs. -/
theorem burst_validation_logs_witness :
    (MemDiag.misalignedAddress ∈ (write_burst_addr 4 4 2 15 1).1 ∧
      MemDiag.misalignedAddress ∈ (respond_burst_read_validate 4 4 2 15 1).1) ∧
    (MemDiag.nonFullByteenable ∈ (write_burst_addr 4 4 0 7 1).1 ∧
      MemDiag.nonFullByteenable ∈ (respond_burst_read_validate 4 4 0 7 1).1) ∧
    (MemDiag.zeroBurstcount ∈ (write_burst_addr 4 4 0 15 0).1 ∧
      MemDiag.zeroBurstcount ∈ (respond_burst_read_validate 4 4 0 15 0).1) :=
  ⟨(burst_validation_logs_and_continues 4 4 2 15 1).2.2.1 (by decide),
   (burst_validation_logs_and_continues 4 4 0 7 1).2.2.2.1 (by decide),
   (burst_validation_logs_and_continues 4 4 0 15 0).2.2.2.2 (by decide)⟩

/-! ## Claim C3 -/

/-- C3 (counterexample): constructing an `AvalonMemory` whose resolved
`burstCountUnits` is `"words"` logs a diagnostic but completes construction
(`Except.ok`), contrary to the claim that the constructor raises. -/
theorem memory_units_no_raise_cex :
    avalon_memory_init avalon_memory_default_properties
        { burstCountUnits := some "words" } true false =
      { classTable := { avalon_memory_default_properties with burstCountUnits := "words" },
        diags := [MemInitDiag.badBurstCountUnits],
        result := Except.ok () } :=
  rfl

/-- C3 (amended): constructing an `AvalonMemory` whose resolved
`burstCountUnits` or `addressUnits` option is any value other than
`"symbols"` logs the corresponding error diagnostic and completes
construction normally (given the memory has at least one of the
`readdata`/`writedata` wires, the only capability whose absence raises). -/
theorem memory_units_check_logs_and_completes
    (classTable : AvalonMemProps) (avl : AvlOverrides) (hasReaddata hasWritedata : Bool)
    (hcap : hasReaddata = true ∨ hasWritedata = true) :
    (avalon_memory_init classTable avl hasReaddata hasWritedata).result = Except.ok () ∧
    ((avalon_memory_init classTable avl hasReaddata hasWritedata).classTable.burstCountUnits
        ≠ "symbols" →
      MemInitDiag.badBurstCountUnits ∈
        (avalon_memory_init classTable avl hasReaddata hasWritedata).diags) ∧
    ((avalon_memory_init classTable avl hasReaddata hasWritedata).classTable.addressUnits
        ≠ "symbols" →
      MemInitDiag.badAddressUnits ∈
        (avalon_memory_init classTable avl hasReaddata hasWritedata).diags) := by
  rcases hcap with h | h <;> subst h <;>
    refine ⟨?_, fun hbad => ?_, fun hbad => ?_⟩ <;>
      simp_all [avalon_memory_init]

/-- C3 (witness for the amended theorem): at a concrete override of both
units options, construction completes and both diagnostics are logged. -/
theorem memory_units_check_witness :
    (avalon_memory_init avalon_memory_default_properties
        { burstCountUnits := some "words", addressUnits := some "words" } true true).result =
      Except.ok () ∧
    MemInitDiag.badBurstCountUnits ∈
      (avalon_memory_init avalon_memory_default_properties
        { burstCountUnits := some "words", addressUnits := some "words" } true true).diags ∧
    MemInitDiag.badAddressUnits ∈
      (avalon_memory_init avalon_memory_default_properties
        { burstCountUnits := some "words", addressUnits := some "words" } true true).diags := by
  have h := memory_units_check_logs_and_completes avalon_memory_default_properties
    { burstCountUnits := some "words", addressUnits := some "words" } true true (Or.inl rfl)
  exact ⟨h.1, h.2.1 (by decide), h.2.2 (by decide)⟩

/-! ## Claim C4 -/

/-- C4 (code bug): `AvalonMemory.__init__` writes caller overrides into the
shared class-level `_avalon_properties` dictionary in place.  Constructing a
first instance with no overrides leaves the table at the declared defaults,
but constructing a second instance with `avl_properties = {readLatency: 5}`
mutates the shared table — which is also the first instance's
`self._avalon_properties` — to `readLatency = 5`, while the declared default
is 1.  So neither the first instance's resolved options nor the default
table are left unchanged. -/
theorem memory_class_table_mutated_by_second_init :
    (avalon_memory_init avalon_memory_default_properties {} true true).classTable =
        avalon_memory_default_properties ∧
    (avalon_memory_init
        (avalon_memory_init avalon_memory_default_properties {} true true).classTable
        { readLatency := some 5 } true true).classTable.readLatency = 5 ∧
    avalon_memory_default_properties.readLatency = 1 :=
  ⟨rfl, rfl, rfl⟩

/-! ## Claim C5: helper lemmas about the lane masks -/

theorem write_masks_succ (n byteenable : Nat) :
    write_masks (n + 1) byteenable =
      if byteenable &&& 2 ^ n ≠ 0 then
        ((write_masks n byteenable).1 ||| 255 <<< (8 * n), (write_masks n byteenable).2)
      else
        ((write_masks n byteenable).1, (write_masks n byteenable).2 ||| 255 <<< (8 * n)) := by
  simp only [write_masks, List.range_succ, List.foldl_append, List.foldl_cons, List.foldl_nil]

theorem and_two_pow_ne_zero (be n : Nat) : (be &&& 2 ^ n ≠ 0) ↔ be.testBit n = true := by
  rw [Nat.and_two_pow]
  cases h : be.testBit n
  · simp
  · simp [(Nat.two_pow_pos n).ne']

theorem testBit_255 (k : Nat) : (255 : Nat).testBit k = decide (k < 8) := by
  have h255 : (255 : Nat) = 2 ^ 8 - 1 := by norm_num
  rw [h255, Nat.testBit_two_pow_sub_one]

theorem write_masks_testBit (byteenable n j : Nat) :
    (write_masks n byteenable).1.testBit j
        = (decide (j < 8 * n) && byteenable.testBit (j / 8)) ∧
    (write_masks n byteenable).2.testBit j
        = (decide (j < 8 * n) && !byteenable.testBit (j / 8)) := by
  induction n with
  | zero => simp [write_masks]
  | succ n ih =>
    rw [write_masks_succ]
    by_cases hbe : byteenable &&& 2 ^ n ≠ 0
    · have hb : byteenable.testBit n = true := (and_two_pow_ne_zero byteenable n).mp hbe
      rw [if_pos hbe]
      rcases Nat.lt_or_ge j (8 * n) with hj | hj
      · have h1 : j < 8 * (n + 1) := by omega
        have h2 : ¬ 8 * n ≤ j := by omega
        simp [Nat.testBit_or, ih.1, ih.2, testBit_255, hj, h1, h2]
      · rcases Nat.lt_or_ge j (8 * n + 8) with hj2 | hj2
        · have hdiv : j / 8 = n := by omega
          have h1 : j < 8 * (n + 1) := by omega
          have h4 : j - 8 * n < 8 := by omega
          simp [Nat.testBit_or, ih.1, ih.2, testBit_255, Nat.not_lt.mpr hj, hj, h4,
            h1, hdiv, hb]
        · have h1 : ¬ j < 8 * (n + 1) := by omega
          have h2 : ¬ j < 8 * n := by omega
          have h4 : ¬ j - 8 * n < 8 := by omega
          simp [Nat.testBit_or, ih.1, ih.2, testBit_255, h1, h2, h4]
    · have hb : byteenable.testBit n = false := by
        rcases h : byteenable.testBit n with _ | _
        · rfl
        · exact absurd ((and_two_pow_ne_zero byteenable n).mpr h) hbe
      rw [if_neg hbe]
      rcases Nat.lt_or_ge j (8 * n) with hj | hj
      · have h1 : j < 8 * (n + 1) := by omega
        have h2 : ¬ 8 * n ≤ j := by omega
        simp [Nat.testBit_or, ih.1, ih.2, testBit_255, hj, h1, h2]
      · rcases Nat.lt_or_ge j (8 * n + 8) with hj2 | hj2
        · have hdiv : j / 8 = n := by omega
          have h1 : j < 8 * (n + 1) := by omega
          have h4 : j - 8 * n < 8 := by omega
          simp [Nat.testBit_or, ih.1, ih.2, testBit_255, Nat.not_lt.mpr hj, hj, h4,
            h1, hdiv, hb]
        · have h1 : ¬ j < 8 * (n + 1) := by omega
          have h2 : ¬ j < 8 * n := by omega
          have h4 : ¬ j - 8 * n < 8 := by omega
          simp [Nat.testBit_or, ih.1, ih.2, testBit_255, h1, h2, h4]

/-- C5: for the non-burst write path of `AvalonMemory` with a byteenable
wire, the stored word is `(data AND mask) OR (old AND oldmask)` where `mask`
has `0xFF` in exactly the byte lanes whose byteenable bit is set, `oldmask`
is its complement within the word (NOT mask), and the old word is 0 for a
never-written address; consequently a full-byte-enable write followed by a
non-burst read returns the data unchanged, and a write with a disabled lane
preserves that byte lane of the prior stored word. -/
theorem nonburst_write_byteenable_merge (lanes : Nat) (mem : Nat → Option Nat)
    (addr data byteenable : Nat) :
    (∀ j, (write_masks lanes byteenable).1.testBit j
        = (decide (j < 8 * lanes) && byteenable.testBit (j / 8))) ∧
    (∀ j, (write_masks lanes byteenable).2.testBit j
        = (decide (j < 8 * lanes) && !byteenable.testBit (j / 8))) ∧
    nonburst_write lanes mem addr data byteenable addr =
      some ((data &&& (write_masks lanes byteenable).1)
        ||| ((mem addr).getD 0 &&& (write_masks lanes byteenable).2)) ∧
    (mem addr = none →
      nonburst_write lanes mem addr data byteenable addr =
        some ((data &&& (write_masks lanes byteenable).1)
          ||| (0 &&& (write_masks lanes byteenable).2))) ∧
    (byteenable = 2 ^ lanes - 1 → data < 2 ^ (8 * lanes) →
      nonburst_read (nonburst_write lanes mem addr data byteenable) addr = some data) ∧
    (∀ i, i < lanes → byteenable.testBit i = false →
      (((data &&& (write_masks lanes byteenable).1)
          ||| ((mem addr).getD 0 &&& (write_masks lanes byteenable).2)) >>> (8 * i)) &&& 255
        = ((mem addr).getD 0 >>> (8 * i)) &&& 255) := by
  refine ⟨fun j => (write_masks_testBit byteenable lanes j).1,
    fun j => (write_masks_testBit byteenable lanes j).2, ?_, ?_, ?_, ?_⟩
  · simp [nonburst_write]
  · intro h
    simp [nonburst_write, h]
  · intro hbe hdata
    have hm : (write_masks lanes byteenable).1 = 2 ^ (8 * lanes) - 1 := by
      apply Nat.eq_of_testBit_eq
      intro j
      rw [(write_masks_testBit byteenable lanes j).1, hbe, Nat.testBit_two_pow_sub_one,
        Nat.testBit_two_pow_sub_one]
      by_cases hj : j < 8 * lanes
      · have hdiv : j / 8 < lanes := by omega
        simp [hj, hdiv]
      · simp [hj]
    have hom : (write_masks lanes byteenable).2 = 0 := by
      apply Nat.eq_of_testBit_eq
      intro j
      rw [(write_masks_testBit byteenable lanes j).2, hbe, Nat.testBit_two_pow_sub_one,
        Nat.zero_testBit]
      by_cases hj : j < 8 * lanes
      · have hdiv : j / 8 < lanes := by omega
        simp [hj, hdiv]
      · simp [hj]
    simp [nonburst_read, nonburst_write, hm, hom,
      Nat.and_pow_two_sub_one_of_lt_two_pow hdata]
  · intro i hi hbe
    apply Nat.eq_of_testBit_eq
    intro k
    rw [Nat.testBit_and, Nat.testBit_and, Nat.testBit_shiftRight, Nat.testBit_shiftRight,
      testBit_255]
    by_cases hk : k < 8
    · have hdiv : (8 * i + k) / 8 = i := by omega
      have hlt : 8 * i + k < 8 * lanes := by omega
      rw [Nat.testBit_or, Nat.testBit_and, Nat.testBit_and,
        (write_masks_testBit byteenable lanes (8 * i + k)).1,
        (write_masks_testBit byteenable lanes (8 * i + k)).2, hdiv, hbe]
      simp [hlt, hk]
    · simp [hk]

/-- Concrete one-entry store used by the C5 witness (word 1801 at address 4). -/
def c5_mem : Nat → Option Nat := fun a => if a = 4 then some 1801 else none

/-- C5 (witness): writing 300 with full byte-enable to a never-written
address then reading it back returns 300; and writing with byteenable 1
(lane 1 disabled) preserves byte lane 1 of the stored word 1801. -/
theorem nonburst_write_byteenable_merge_witness :
    nonburst_read (nonburst_write 2 (fun _ => none) 4 300 3) 4 = some 300 ∧
    (((5 &&& (write_masks 2 1).1) ||| ((c5_mem 4).getD 0 &&& (write_masks 2 1).2)) >>> (8 * 1))
        &&& 255
      = ((c5_mem 4).getD 0 >>> (8 * 1)) &&& 255 :=
  ⟨(nonburst_write_byteenable_merge 2 (fun _ => none) 4 300 3).2.2.2.2.1 (by decide) (by decide),
   (nonburst_write_byteenable_merge 2 c5_mem 4 5 1).2.2.2.2.2 1 (by decide) (by decide)⟩

/-! ## Claim C7 -/

/-- C7: at each sample phase the word-level streaming monitor accepts a word
iff `valid` is asserted and either no ready wire exists or `ready` is also
asserted (the packetized monitor's acceptance closure is the same rule); and
for every sequence of words sent back-to-back with `ready` held high and no
throttling, the monitor delivers exactly those words, in order, with their
contents unchanged, to the delivery callback. -/
theorem st_monitor_accept_iff_and_delivery (hasReady : Bool) (cfg : PktMonitorCfg) :
    (∀ c : STCycle, st_accept hasReady c = (c.valid && (!hasReady || c.ready))) ∧
    (∀ c : PktCycle, pkt_accept cfg c = (c.valid && (!cfg.hasReady || c.ready))) ∧
    (∀ ws : List (List Nat),
      st_monitor_recv hasReady (avalonST_driver_trace true ws) = ws) := by
  refine ⟨fun c => ?_, fun c => ?_, fun ws => ?_⟩
  · cases hasReady <;> simp [st_accept]
  · rcases h : cfg.hasReady <;> simp [pkt_accept, h]
  · induction ws with
    | nil => rfl
    | cons w ws ih =>
      cases hasReady <;> simp [avalonST_driver_trace, st_monitor_recv, st_accept, ih]

/-! ## Claim C10 -/

theorem pkt_step_accepted_some_eop (cfg : PktMonitorCfg) (s : PktState) (c : PktCycle)
    (s' : PktState) (out : PktDelivery)
    (h : pkt_step_accepted cfg s c = Except.ok (s', some out)) : c.eop = true := by
  by_cases he : c.eop = true
  · exact he
  · exfalso
    have he' : c.eop = false := by
      rcases hb : c.eop with _ | _
      · rfl
      · exact absurd hb he
    simp only [pkt_step_accepted, he'] at h
    repeat' split at h
    all_goals simp_all

/-- C10: if the packetized streaming monitor accepts a word with
start-of-packet asserted while its packet buffer is non-empty, it raises a
`duplicateStart` protocol error — terminal, so the partially accumulated
packet is never delivered; and the delivery callback fires only on an
accepted end-of-packet word (any step producing a delivery is a
non-reset, accepted, end-of-packet cycle). -/
theorem pkt_monitor_duplicate_start_and_eop_delivery (cfg : PktMonitorCfg)
    (s : PktState) (c : PktCycle) :
    (c.inReset = false → pkt_accept cfg c = true → c.sop = true → s.pkt ≠ [] →
      pkt_step cfg s c = Except.error ProtoError.duplicateStart) ∧
    (∀ s' out, pkt_step cfg s c = Except.ok (s', some out) →
      c.inReset = false ∧ pkt_accept cfg c = true ∧ c.eop = true) := by
  constructor
  · intro hres hacc hsop hpkt
    simp [pkt_step, hres, hacc, pkt_step_accepted, hsop, hpkt]
  · intro s' out h
    rcases hr : c.inReset with _ | _
    · rcases ha : pkt_accept cfg c with _ | _
      · exfalso
        rw [pkt_step, if_neg (by simp [hr]), if_neg (by simp [ha])] at h
        simp only [pkt_step_idle] at h
        split at h
        · split at h
          · exact Except.noConfusion h
          · rcases Except.ok.inj h with h2
            exact Option.noConfusion (congrArg Prod.snd h2)
        · rcases Except.ok.inj h with h2
          exact Option.noConfusion (congrArg Prod.snd h2)
      · rw [pkt_step, if_neg (by simp [hr]), if_pos (by simp [ha])] at h
        exact ⟨rfl, rfl, pkt_step_accepted_some_eop cfg s c s' out h⟩
    · exfalso
      rw [pkt_step, if_pos (by simp [hr])] at h
      rcases Except.ok.inj h with h2
      exact Option.noConfusion (congrArg Prod.snd h2)

/-- Concrete monitor configuration for the C10 witness: single-symbol words,
no optional wires, no timeout. -/
def c10_cfg : PktMonitorCfg :=
  { dataBitsPerSymbol := 8, firstSymbolInHighOrderBits := true, maxChannel := 0,
    invalidTimeout := 0, useEmpty := false, reportChannel := false,
    hasReady := false, hasChannel := false, hasError := false }

/-- Mid-packet state (one word buffered) for the C10 witness. -/
def c10_state_mid : PktState :=
  { pkt := [Bit.b1], inPkt := true, invalidCyclecount := 0, channel := none }

/-- Idle state for the C10 witness. -/
def c10_state_idle : PktState :=
  { pkt := [], inPkt := false, invalidCyclecount := 0, channel := none }

/-- A second start-of-packet arriving mid-packet, for the C10 witness. -/
def c10_cycle_dup : PktCycle :=
  { inReset := false, valid := true, ready := true, sop := true, eop := false,
    data := [Bit.b0], empty := 0, channel := 0, errorSig := 0 }

/-- A one-word packet (start and end of packet together), for the C10
witness. -/
def c10_cycle_sopeop : PktCycle :=
  { inReset := false, valid := true, ready := true, sop := true, eop := true,
    data := [Bit.b1], empty := 0, channel := 0, errorSig := 0 }

/-- C10 (witness): a concrete duplicate start-of-packet raises, and a
concrete delivering step is indeed a non-reset accepted end-of-packet
cycle. -/
theorem pkt_monitor_duplicate_start_witness :
    pkt_step c10_cfg c10_state_mid c10_cycle_dup
      = Except.error ProtoError.duplicateStart ∧
    (c10_cycle_sopeop.inReset = false ∧ pkt_accept c10_cfg c10_cycle_sopeop = true ∧
      c10_cycle_sopeop.eop = true) :=
  ⟨(pkt_monitor_duplicate_start_and_eop_delivery c10_cfg c10_state_mid c10_cycle_dup).1
      rfl rfl rfl (by decide),
   (pkt_monitor_duplicate_start_and_eop_delivery c10_cfg c10_state_idle c10_cycle_sopeop).2
     c10_state_idle { data := [Bit.b1], channel := none } rfl⟩

/-! ## Claim C9 -/

theorem pkt_step_idle_unfold (cfg : PktMonitorCfg) (s : PktState) (c : PktCycle)
    (hres : c.inReset = false) (hacc : pkt_accept cfg c = false) (hin : s.inPkt = true) :
    pkt_step cfg s c =
      if cfg.invalidTimeout ≠ 0 ∧ s.invalidCyclecount + 1 ≥ cfg.invalidTimeout then
        Except.error ProtoError.inPacketTimeout
      else Except.ok ({ s with invalidCyclecount := s.invalidCyclecount + 1 }, none) := by
  rw [pkt_step, if_neg (by simp [hres]), if_neg (by simp [hacc]), pkt_step_idle,
    if_pos hin]

theorem pkt_run_idle_count (cfg : PktMonitorCfg) (c : PktCycle)
    (hres : c.inReset = false) (hacc : pkt_accept cfg c = false) :
    ∀ k (s : PktState), s.inPkt = true →
      (cfg.invalidTimeout = 0 →
        pkt_run cfg s (List.replicate k c) =
          Except.ok ({ s with invalidCyclecount := s.invalidCyclecount + k }, [])) ∧
      (cfg.invalidTimeout ≠ 0 →
        (s.invalidCyclecount + k < cfg.invalidTimeout →
          pkt_run cfg s (List.replicate k c) =
            Except.ok ({ s with invalidCyclecount := s.invalidCyclecount + k }, [])) ∧
        (s.invalidCyclecount < cfg.invalidTimeout →
          cfg.invalidTimeout ≤ s.invalidCyclecount + k →
          pkt_run cfg s (List.replicate k c) = Except.error ProtoError.inPacketTimeout)) := by
  intro k
  induction k with
  | zero =>
    intro s hin
    refine ⟨fun _ => ?_, fun _ => ⟨fun _ => ?_, fun hlt hge => ?_⟩⟩
    · simp [pkt_run]
    · simp [pkt_run]
    · omega
  | succ n ih =>
    intro s hin
    have hstep := pkt_step_idle_unfold cfg s c hres hacc hin
    have hin' : ({ s with invalidCyclecount := s.invalidCyclecount + 1 } : PktState).inPkt
        = true := hin
    have harith : s.invalidCyclecount + 1 + n = s.invalidCyclecount + (n + 1) := by omega
    refine ⟨fun hT => ?_, fun hT => ⟨fun hlt => ?_, fun hlt hge => ?_⟩⟩
    · have hok : pkt_step cfg s c =
          Except.ok ({ s with invalidCyclecount := s.invalidCyclecount + 1 }, none) := by
        rw [hstep, if_neg (by simp [hT])]
      have hrec := (ih { s with invalidCyclecount := s.invalidCyclecount + 1 } hin').1 hT
      simp only [List.replicate_succ, pkt_run, hok, hrec]
      simp [harith]
    · have hok : pkt_step cfg s c =
          Except.ok ({ s with invalidCyclecount := s.invalidCyclecount + 1 }, none) := by
        rw [hstep, if_neg (by omega)]
      have hrec := ((ih { s with invalidCyclecount := s.invalidCyclecount + 1 } hin').2 hT).1
        (show s.invalidCyclecount + 1 + n < cfg.invalidTimeout by omega)
      simp only [List.replicate_succ, pkt_run, hok, hrec]
      simp [harith]
    · by_cases hnow : s.invalidCyclecount + 1 ≥ cfg.invalidTimeout
      · have herr : pkt_step cfg s c = Except.error ProtoError.inPacketTimeout := by
          rw [hstep, if_pos ⟨hT, hnow⟩]
        simp only [List.replicate_succ, pkt_run, herr]
      · have hok : pkt_step cfg s c =
            Except.ok ({ s with invalidCyclecount := s.invalidCyclecount + 1 }, none) := by
          rw [hstep, if_neg (by omega)]
        have hrec := ((ih { s with invalidCyclecount := s.invalidCyclecount + 1 } hin').2 hT).2
          (show s.invalidCyclecount + 1 < cfg.invalidTimeout by omega)
          (show cfg.invalidTimeout ≤ s.invalidCyclecount + 1 + n by omega)
        simp only [List.replicate_succ, pkt_run, hok, hrec]

theorem pkt_step_accepted_resets_counter (cfg : PktMonitorCfg) (s : PktState) (c : PktCycle)
    (s' : PktState) (out : Option PktDelivery)
    (h : pkt_step_accepted cfg s c = Except.ok (s', out)) : s'.invalidCyclecount = 0 := by
  simp only [pkt_step_accepted] at h
  repeat' split at h
  all_goals first
    | exact Except.noConfusion h
    | (rcases Except.ok.inj h with h2
       exact (congrArg (fun p => p.1.invalidCyclecount) h2).symm.trans rfl)

/-- C9: while a packet is open, each sampled cycle with no accepted word
increments the invalid-cycle counter; every accepted word, from any monitor
state whatever its current counter value, leaves the counter at 0 in the
successor state; with a non-zero `invalidTimeout` the monitor raises the
in-packet timeout protocol error exactly when the counter reaches the
timeout — on the `invalidTimeout`-th consecutive idle cycle and on no
earlier one — and with `invalidTimeout = 0` no stall ever raises. -/
theorem pkt_monitor_invalid_timeout (cfg : PktMonitorCfg) (s : PktState) (c : PktCycle)
    (hres : c.inReset = false) (hacc : pkt_accept cfg c = false)
    (hin : s.inPkt = true) (hzero : s.invalidCyclecount = 0) :
    (cfg.invalidTimeout = 0 → ∀ k,
      pkt_run cfg s (List.replicate k c) =
        Except.ok ({ s with invalidCyclecount := k }, [])) ∧
    (cfg.invalidTimeout ≠ 0 → ∀ k,
      (k < cfg.invalidTimeout →
        pkt_run cfg s (List.replicate k c) =
          Except.ok ({ s with invalidCyclecount := k }, [])) ∧
      (cfg.invalidTimeout ≤ k →
        pkt_run cfg s (List.replicate k c) = Except.error ProtoError.inPacketTimeout)) ∧
    (∀ (t : PktState) (c' : PktCycle) s' out, pkt_accept cfg c' = true →
      c'.inReset = false →
      pkt_step cfg t c' = Except.ok (s', out) → s'.invalidCyclecount = 0) := by
  refine ⟨fun hT k => ?_, fun hT k => ⟨fun hk => ?_, fun hk => ?_⟩,
    fun t c' s' out ha hr h => ?_⟩
  · have := (pkt_run_idle_count cfg c hres hacc k s hin).1 hT
    rw [this]
    simp [hzero]
  · have := ((pkt_run_idle_count cfg c hres hacc k s hin).2 hT).1 (by omega)
    rw [this]
    simp [hzero]
  · exact ((pkt_run_idle_count cfg c hres hacc k s hin).2 hT).2 (by omega) (by omega)
  · rw [pkt_step, if_neg (by simp [hr]), if_pos (by simp [ha])] at h
    exact pkt_step_accepted_resets_counter cfg t c' s' out h

/-- Concrete monitor configuration for the C9 witness (timeout of 2). -/
def c9_cfg : PktMonitorCfg :=
  { dataBitsPerSymbol := 8, firstSymbolInHighOrderBits := true, maxChannel := 0,
    invalidTimeout := 2, useEmpty := false, reportChannel := false,
    hasReady := false, hasChannel := false, hasError := false }

/-- Mid-packet state with a fresh counter, for the C9 witness. -/
def c9_state : PktState :=
  { pkt := [Bit.b1], inPkt := true, invalidCyclecount := 0, channel := none }

/-- An idle (not-accepted, not-reset) cycle, for the C9 witness. -/
def c9_cycle_idle : PktCycle :=
  { inReset := false, valid := false, ready := true, sop := false, eop := false,
    data := [Bit.b0], empty := 0, channel := 0, errorSig := 0 }

/-- Mid-packet state already stalled for one cycle (counter 1), for the C9
witness. -/
def c9_state_stalled : PktState :=
  { pkt := [Bit.b1], inPkt := true, invalidCyclecount := 1, channel := none }

/-- An accepted mid-packet data word (neither start nor end of packet), for
the C9 witness. -/
def c9_cycle_word : PktCycle :=
  { inReset := false, valid := true, ready := true, sop := false, eop := false,
    data := [Bit.b0], empty := 0, channel := 0, errorSig := 0 }

/-- The successor state the monitor computes for `c9_cycle_word` from
`c9_state_stalled`: word appended, counter back to 0. -/
def c9_state_reset : PktState :=
  { pkt := [Bit.b1, Bit.b0], inPkt := true, invalidCyclecount := 0, channel := none }

/-- C9 (witness): with `invalidTimeout = 2`, one idle cycle only counts
(counter 1, no error) and two idle cycles raise the in-packet timeout; and
an accepted word arriving with the counter already at 1 produces a successor
state whose counter is back to 0. -/
theorem pkt_monitor_invalid_timeout_witness :
    pkt_run c9_cfg c9_state (List.replicate 1 c9_cycle_idle) =
      Except.ok ({ c9_state with invalidCyclecount := 1 }, []) ∧
    pkt_run c9_cfg c9_state (List.replicate 2 c9_cycle_idle) =
      Except.error ProtoError.inPacketTimeout ∧
    c9_state_stalled.invalidCyclecount = 1 ∧
    pkt_step c9_cfg c9_state_stalled c9_cycle_word = Except.ok (c9_state_reset, none) ∧
    c9_state_reset.invalidCyclecount = 0 :=
  ⟨((pkt_monitor_invalid_timeout c9_cfg c9_state c9_cycle_idle rfl rfl rfl rfl).2.1
      (by decide) 1).1 (by decide),
   ((pkt_monitor_invalid_timeout c9_cfg c9_state c9_cycle_idle rfl rfl rfl rfl).2.1
      (by decide) 2).2 (by decide),
   rfl,
   rfl,
   (pkt_monitor_invalid_timeout c9_cfg c9_state c9_cycle_idle rfl rfl rfl rfl).2.2
     c9_state_stalled c9_cycle_word c9_state_reset none rfl rfl rfl⟩

/-! ## Claim C6 -/

/-- Monitor configuration used for the C6 counterexample and witness:
1 bit per symbol, first symbol in high-order bits, `empty` in use. -/
def c6_cfg : PktMonitorCfg :=
  { dataBitsPerSymbol := 1, firstSymbolInHighOrderBits := true, maxChannel := 0,
    invalidTimeout := 0, useEmpty := true, reportChannel := false,
    hasReady := false, hasChannel := false, hasError := false }

/-- End-of-packet cycle whose word is `1x` with empty count 1, for the C6
counterexample. -/
def c6_cycle_cex : PktCycle :=
  { inReset := false, valid := true, ready := true, sop := false, eop := true,
    data := [Bit.b1, Bit.bx], empty := 1, channel := 0, errorSig := 0 }

/-- C6 (counterexample): with `firstSymbolInHighOrderBits` set, the word
`1x` with empty count 1 resolves to `[1]` — the monitor strips the trailing
(low-order) bit and accepts the word.  Had it stripped from the leading end
as the claim states, the remainder would have been the still-unknown `[x]`,
which is unresolvable and would have raised a protocol error. -/
theorem pkt_monitor_empty_strip_direction_cex :
    pkt_eop_value c6_cfg c6_cycle_cex = Except.ok [Bit.b1] ∧
    List.drop (c6_cycle_cex.empty * c6_cfg.dataBitsPerSymbol) c6_cycle_cex.data = [Bit.bx] ∧
    resolvable [Bit.bx] = false :=
  ⟨rfl, rfl, rfl⟩

/-- C6 (amended): for every end-of-packet word accepted with a nonzero empty
value, the number of stripped bits equals `empty * dataBitsPerSymbol`,
stripped from the trailing (low-order) end of the word when
`firstSymbolInHighOrderBits` is configured and from the leading end
otherwise, before the word is resolved; if the word still contains unknown
bits after this masking, the monitor raises a protocol error. -/
theorem pkt_monitor_empty_strip (cfg : PktMonitorCfg) (c : PktCycle)
    (hue : cfg.useEmpty = true) (hne : c.empty ≠ 0)
    (hdb : 0 < cfg.dataBitsPerSymbol)
    (hlen : c.empty * cfg.dataBitsPerSymbol ≤ c.data.length) :
    (cfg.firstSymbolInHighOrderBits = true →
      pkt_eop_value cfg c =
        (if resolvable (c.data.take (c.data.length - c.empty * cfg.dataBitsPerSymbol)) then
          Except.ok (c.data.take (c.data.length - c.empty * cfg.dataBitsPerSymbol))
        else Except.error ProtoError.unresolvable) ∧
      (c.data.take (c.data.length - c.empty * cfg.dataBitsPerSymbol)).length
        = c.data.length - c.empty * cfg.dataBitsPerSymbol) ∧
    (cfg.firstSymbolInHighOrderBits = false →
      pkt_eop_value cfg c =
        (if resolvable (c.data.drop (c.empty * cfg.dataBitsPerSymbol)) then
          Except.ok (c.data.drop (c.empty * cfg.dataBitsPerSymbol))
        else Except.error ProtoError.unresolvable) ∧
      (c.data.drop (c.empty * cfg.dataBitsPerSymbol)).length
        = c.data.length - c.empty * cfg.dataBitsPerSymbol) ∧
    c.data.length - (c.data.length - c.empty * cfg.dataBitsPerSymbol)
        = c.empty * cfg.dataBitsPerSymbol ∧
    (∀ s : PktState, s.inPkt = true → c.inReset = false → c.sop = false → c.eop = true →
      pkt_accept cfg c = true →
      pkt_eop_value cfg c = Except.error ProtoError.unresolvable →
      pkt_step cfg s c = Except.error ProtoError.unresolvable) := by
  have he : c.empty * cfg.dataBitsPerSymbol ≠ 0 :=
    Nat.mul_ne_zero hne (by omega)
  refine ⟨fun hf => ⟨?_, ?_⟩, fun hf => ⟨?_, ?_⟩, by omega,
    fun s hin hres hsop heop hacc herr => ?_⟩
  · simp [pkt_eop_value, hue, hne, hf, sliceDropLast, he]
  · simp [List.length_take]
  · simp [pkt_eop_value, hue, hne, hf]
  · simp
  · simp [pkt_step, pkt_step_accepted, hres, hacc, hsop, hin, heop, herr]

/-- A well-formed end-of-packet cycle (`110x` as `1 1 0 x`, empty 1) for the
C6 witness. -/
def c6_cycle_ok : PktCycle :=
  { inReset := false, valid := true, ready := true, sop := false, eop := true,
    data := [Bit.b1, Bit.b0, Bit.bx], empty := 1, channel := 0, errorSig := 0 }

/-- An end-of-packet cycle that stays unresolvable after masking (`x0` with
empty 1), for the C6 witness. -/
def c6_cycle_bad : PktCycle :=
  { inReset := false, valid := true, ready := true, sop := false, eop := true,
    data := [Bit.bx, Bit.b0], empty := 1, channel := 0, errorSig := 0 }

/-- Mid-packet state for the C6 witness. -/
def c6_state : PktState :=
  { pkt := [Bit.b1], inPkt := true, invalidCyclecount := 0, channel := none }

/-- C6 (witness for the amended theorem): the trailing bit really is
stripped and the resolved word accepted, while an unresolvable masked word
really raises through the monitor step. -/
theorem pkt_monitor_empty_strip_witness :
    pkt_eop_value c6_cfg c6_cycle_ok = Except.ok [Bit.b1, Bit.b0] ∧
    pkt_step c6_cfg c6_state c6_cycle_bad = Except.error ProtoError.unresolvable :=
  ⟨((pkt_monitor_empty_strip c6_cfg c6_cycle_ok rfl (by decide) (by decide)
      (by decide)).1 rfl).1.trans rfl,
   (pkt_monitor_empty_strip c6_cfg c6_cycle_bad rfl (by decide) (by decide)
      (by decide)).2.2.2 c6_state rfl rfl rfl rfl rfl rfl⟩

/-! ## Claim C2 -/

/-- Driver configuration for the C2 counterexample and witness: 4-symbol
words, `empty` in use, a channel wire with `maxChannel = 0`, no ready wire. -/
def c2_cfg : STPktsDriverCfg :=
  { busWidth := 4, useEmpty := true, hasError := false, hasChannel := true,
    hasReady := false, maxChannel := 0 }

/-- Driver configuration without a channel wire, for the C2 witness. -/
def c2_cfg_noch : STPktsDriverCfg :=
  { busWidth := 4, useEmpty := true, hasError := false, hasChannel := false,
    hasReady := false, maxChannel := 0 }

/-- C2 (counterexample): sending `[1, 2, 3]` with out-of-range channel 1
(`maxChannel = 0`) raises the channel validation error only after the first
clock edge has been awaited and `valid` has been asserted — the raise does
not happen before a cycle is driven, contrary to the claim. -/
theorem send_string_channel_check_after_valid_cex :
    (send_string c2_cfg [1, 2, 3] true (some 1)).2
        = some SendStringError.channelOutOfRange ∧
    (send_string c2_cfg [1, 2, 3] true (some 1)).1 =
      send_string_prologue c2_cfg ++ [DrvEvent.setChannel (some 0),
        DrvEvent.clockEdge, DrvEvent.setValid true] ∧
    DrvEvent.clockEdge ∈ (send_string c2_cfg [1, 2, 3] true (some 1)).1 ∧
    DrvEvent.setValid true ∈ (send_string c2_cfg [1, 2, 3] true (some 1)).1 := by
  refine ⟨by decide, by decide, by decide, by decide⟩

/-- C2 (amended): with a channel wire, a channel argument outside
`[0, maxChannel]` raises the validation error on the first word's drive
phase — after the (optional) sync clock edge and after `valid` is asserted,
but before `startofpacket`, the data word, `endofpacket`, or a non-idle
`empty` are driven, so no packet content reaches the bus; supplying any
channel argument when the bus has no channel wire raises before any clock
edge, with only the idle defaults driven.  (The prologue drives no clock
edge, no `valid` assertion, no start/end-of-packet assertion and no data.) -/
theorem send_string_channel_validation_timing (cfg : STPktsDriverCfg) (s : List Nat)
    (sync : Bool) (ch : Int) :
    (cfg.hasChannel = true → (ch > (cfg.maxChannel : Int) ∨ ch < 0) → s ≠ [] →
      send_string cfg s sync (some ch) =
        (send_string_prologue cfg ++ [DrvEvent.setChannel (some 0)]
            ++ (if sync then [DrvEvent.clockEdge] else []) ++ [DrvEvent.setValid true],
         some SendStringError.channelOutOfRange)) ∧
    (cfg.hasChannel = false →
      send_string cfg s sync (some ch) =
        (send_string_prologue cfg, some SendStringError.noChannelSignal)) ∧
    DrvEvent.clockEdge ∉ send_string_prologue cfg ∧
    DrvEvent.setValid true ∉ send_string_prologue cfg ∧
    DrvEvent.setStartofpacket (some true) ∉ send_string_prologue cfg ∧
    DrvEvent.setEndofpacket (some true) ∉ send_string_prologue cfg ∧
    (∀ d, DrvEvent.setData d ∉ send_string_prologue cfg) := by
  refine ⟨fun hch hrange hs => ?_, fun hch => ?_, ?_, ?_, ?_, ?_, fun d => ?_⟩
  · cases s with
    | nil => exact absurd rfl hs
    | cons b rest =>
      cases sync <;> simp [send_string, send_string_loop, hch, hrange]
  · simp [send_string, hch]
  all_goals rcases hu : cfg.useEmpty with _ | _ <;> rcases hee : cfg.hasError with _ | _ <;>
    simp [send_string_prologue, hu, hee]

/-- C2 (witness for the amended theorem): the two raises really occur, with
exactly the stated event prefixes, at concrete inputs. -/
theorem send_string_channel_validation_witness :
    send_string c2_cfg [1, 2, 3] true (some 1) =
      (send_string_prologue c2_cfg ++ [DrvEvent.setChannel (some 0)]
          ++ (if true then [DrvEvent.clockEdge] else []) ++ [DrvEvent.setValid true],
       some SendStringError.channelOutOfRange) ∧
    send_string c2_cfg_noch [1] true (some 0) =
      (send_string_prologue c2_cfg_noch, some SendStringError.noChannelSignal) :=
  ⟨(send_string_channel_validation_timing c2_cfg [1, 2, 3] true 1).1 rfl (by decide)
      (by decide),
   (send_string_channel_validation_timing c2_cfg_noch [1] true 0).2.1 rfl⟩

/-! ## Claim C8 -/

theorem emptyDrives_append (a b : List DrvEvent) :
    emptyDrives (a ++ b) = emptyDrives a ++ emptyDrives b := by
  simp [emptyDrives]

theorem eopDrives_append (a b : List DrvEvent) :
    eopDrives (a ++ b) = eopDrives a ++ eopDrives b := by
  simp [eopDrives]

theorem filterMap_drv_ite {α : Type} (f : DrvEvent → Option α) (P : Prop) [Decidable P]
    (a b : List DrvEvent) :
    List.filterMap f (if P then a else b)
      = if P then List.filterMap f a else List.filterMap f b :=
  apply_ite (List.filterMap f) P a b

theorem send_string_loop_final_empty (cfg : STPktsDriverCfg) (sync : Bool)
    (hw : 0 < cfg.busWidth) (hue : cfg.useEmpty = true) :
    ∀ fuel (s : List Nat) (firstword : Bool), s ≠ [] → s.length ≤ fuel →
      emptyDrives (send_string_loop cfg none sync fuel firstword s).1 =
        [some (cfg.busWidth -
          (if s.length % cfg.busWidth = 0 then cfg.busWidth
           else s.length % cfg.busWidth))] ∧
      eopDrives (send_string_loop cfg none sync fuel firstword s).1 = [some true] ∧
      (send_string_loop cfg none sync fuel firstword s).2 = none := by
  intro fuel
  induction fuel with
  | zero =>
    intro s firstword hs hlen
    cases s with
    | nil => exact absurd rfl hs
    | cons b rest => simp at hlen
  | succ n ih =>
    intro s firstword hs hlen
    cases s with
    | nil => exact absurd rfl hs
    | cons b rest =>
      simp only [emptyDrives, eopDrives] at *
      by_cases hle : rest.length + 1 ≤ cfg.busWidth
      · have goalarith : (cfg.busWidth -
            (if (rest.length + 1) % cfg.busWidth = 0 then cfg.busWidth
             else (rest.length + 1) % cfg.busWidth)) = cfg.busWidth - (rest.length + 1) := by
          rcases Nat.lt_or_ge (rest.length + 1) cfg.busWidth with h | h
          · rw [Nat.mod_eq_of_lt h, if_neg (by omega)]
          · have heq : rest.length + 1 = cfg.busWidth := by omega
            rw [heq]
            simp
        cases hc : cfg.hasChannel <;>
          simp [send_string_loop, hle, hue, hc, filterMap_drv_ite, goalarith]
      · have hlt : cfg.busWidth < rest.length + 1 := by omega
        have hrest_len : (List.drop cfg.busWidth (b :: rest)).length ≤ n := by
          rw [List.length_drop]
          simp only [List.length_cons]
          simp only [List.length_cons] at hlen
          omega
        have hrest_ne : List.drop cfg.busWidth (b :: rest) ≠ [] := by
          intro hnil
          have hl := congrArg List.length hnil
          rw [List.length_drop] at hl
          simp only [List.length_cons, List.length_nil] at hl
          omega
        have hmod : (List.drop cfg.busWidth (b :: rest)).length % cfg.busWidth
            = (rest.length + 1) % cfg.busWidth := by
          rw [List.length_drop]
          simp only [List.length_cons]
          exact (Nat.mod_eq_sub_mod (by omega)).symm
        obtain ⟨ihe, ihp, ihn⟩ := ih (List.drop cfg.busWidth (b :: rest)) false hrest_ne hrest_len
        rw [hmod] at ihe
        cases hc : cfg.hasChannel <;>
          simp [send_string_loop, hle, hue, hc, filterMap_drv_ite, ihe, ihp, ihn]

/-- C8: for every payload sent by the packetized streaming driver whose
length is not a multiple of the bus word width, the value driven on the
`empty` wire — driven exactly once, together with the single end-of-packet
assertion, on the final word — equals the word's symbol count minus the
number of remaining payload bytes (`busWidth - length % busWidth`); in
particular a payload of `2*W + 3` bytes on a `W`-symbol bus drives an empty
count of `W - 3`. -/
theorem send_string_empty_count (cfg : STPktsDriverCfg) (s : List Nat) (sync : Bool)
    (hue : cfg.useEmpty = true) (hw : 0 < cfg.busWidth) :
    (s ≠ [] → s.length % cfg.busWidth ≠ 0 →
      emptyDrives (send_string_loop cfg none sync s.length true s).1 =
        [some (cfg.busWidth - s.length % cfg.busWidth)] ∧
      eopDrives (send_string_loop cfg none sync s.length true s).1 = [some true]) ∧
    (s.length = 2 * cfg.busWidth + 3 → 3 < cfg.busWidth →
      emptyDrives (send_string_loop cfg none sync s.length true s).1 =
        [some (cfg.busWidth - 3)] ∧
      eopDrives (send_string_loop cfg none sync s.length true s).1 = [some true]) := by
  constructor
  · intro hs hmod
    have h := send_string_loop_final_empty cfg sync hw hue s.length s true hs le_rfl
    rw [if_neg hmod] at h
    exact ⟨h.1, h.2.1⟩
  · intro hlen h3
    have hs : s ≠ [] := by
      intro hnil
      rw [hnil] at hlen
      simp at hlen
    have hmod : s.length % cfg.busWidth = 3 := by
      rw [hlen, show 2 * cfg.busWidth + 3 = 3 + cfg.busWidth * 2 from by ring,
        Nat.add_mul_mod_self_left, Nat.mod_eq_of_lt h3]
    have h := send_string_loop_final_empty cfg sync hw hue s.length s true hs le_rfl
    rw [if_neg (by omega), hmod] at h
    exact ⟨h.1, h.2.1⟩

/-- Driver configuration for the C8 witness: 4 symbols per word, `empty` in
use, no optional wires. -/
def c8_cfg : STPktsDriverCfg :=
  { busWidth := 4, useEmpty := true, hasError := false, hasChannel := false,
    hasReady := false, maxChannel := 0 }

/-- C8 (witness): an 11-byte payload (`2*4 + 3`) on a 4-symbol bus drives a
single empty count of `4 - 3 = 1` on its single end-of-packet word. -/
theorem send_string_empty_count_witness :
    emptyDrives (send_string_loop c8_cfg none true (List.range 11).length true
        (List.range 11)).1 = [some (c8_cfg.busWidth - 3)] ∧
    eopDrives (send_string_loop c8_cfg none true (List.range 11).length true
        (List.range 11)).1 = [some true] :=
  (send_string_empty_count c8_cfg (List.range 11) true rfl (by decide)).2
    (by decide) (by decide)

end AvalonModel
